import Mathlib

/-!
Verification development for the Homebrew Bottles Sync System's error-handling
and hash-file integrity subsystem (`shared/error_handling.py` and
`shared/models.py`).  The Python code is shallowly embedded: pure methods become
Lean functions, the S3 object store becomes an explicit association-list state
threaded through the operations, Python exceptions become `Except`/`Option`
results, and Python `float` delays are modelled as rationals.  Python `dict`
values are modelled as insertion-ordered association lists (`List (String × _)`),
matching CPython's ordered-dict semantics (assignment to an existing key keeps
its position; assignment to a new key appends).
-/

namespace HomebrewSync

/-- Characters accepted by the regex `[a-fA-F0-9]`. -/
def isHexChar (c : Char) : Bool :=
  (('0' ≤ c) && (c ≤ '9')) || (('a' ≤ c) && (c ≤ 'f')) || (('A' ≤ c) && (c ≤ 'F'))

/-- Model of the Python check `re.match(r'^[a-fA-F0-9]{64}$', s)`:
64 hexadecimal characters. -/
def isSha256Hex (s : String) : Bool :=
  s.data.length == 64 && s.data.all isHexChar

/-- Split a character list at every occurrence of `sep`
(model of Python `str.split(sep)` for a one-character separator). -/
def splitChar (sep : Char) : List Char → List (List Char)
  | [] => [[]]
  | c :: rest =>
    if c = sep then [] :: splitChar sep rest
    else
      match splitChar sep rest with
      | [] => [[c]]
      | h :: t => (c :: h) :: t

/-- Split a character list at the LAST occurrence of `sep`; `none` when `sep`
does not occur.  This models Python `str.rsplit(sep, 1)`: the `some` case is a
two-element result, the `none` case is the one-element result. -/
def rsplitOnce (sep : Char) : List Char → Option (List Char × List Char)
  | [] => none
  | c :: rest =>
    match rsplitOnce sep rest with
    | some (a, b) => some (c :: a, b)
    | none => if c = sep then some ([], rest) else none

/-- Digits-to-number fold; meaningful only on all-digit input. -/
def digitsToNat (l : List Char) : Nat :=
  l.foldl (fun acc c => acc * 10 + (c.toNat - '0'.toNat)) 0

def allDigits (l : List Char) : Bool := l.all Char.isDigit

/-- Gregorian leap-year rule (as implemented by Python's `datetime`). -/
def isLeapYear (y : Nat) : Bool :=
  (y % 4 == 0 && y % 100 != 0) || (y % 400 == 0)

def daysInMonth (y m : Nat) : Nat :=
  if m = 2 then (if isLeapYear y then 29 else 28)
  else if m = 4 ∨ m = 6 ∨ m = 9 ∨ m = 11 then 30
  else 31

/-- A calendar date as a (year, month, day) triple. -/
abbrev Ymd := Nat × Nat × Nat

/-- Model of `datetime.strptime(s, '%Y-%m-%d')` succeeding: exactly three
hyphen-separated all-digit fields, a four-digit year in 1..9999, a one- or
two-digit month in 1..12, and a one- or two-digit day valid for that month
(this mirrors CPython's `_strptime` regexes `%Y` = four digits,
`%m`/`%d` = one or two digits, plus the `datetime` constructor's range
checks). -/
def parseYmd (s : String) : Option Ymd :=
  match splitChar '-' s.data with
  | [ys, ms, ds] =>
    if allDigits ys && allDigits ms && allDigits ds &&
        ys.length == 4 && decide (1 ≤ ms.length) && decide (ms.length ≤ 2) &&
        decide (1 ≤ ds.length) && decide (ds.length ≤ 2) then
      let y := digitsToNat ys
      let m := digitsToNat ms
      let d := digitsToNat ds
      if 1 ≤ y && 1 ≤ m && m ≤ 12 && 1 ≤ d && d ≤ daysInMonth y m then
        some (y, m, d)
      else none
    else none
  | _ => none

def isYmdDate (s : String) : Bool := (parseYmd s).isSome

/-- Strict lexicographic "later than" on dates, used for the future-date
corruption check. -/
def ymdLater (a b : Ymd) : Bool :=
  a.1 > b.1 || (a.1 == b.1 && (a.2.1 > b.2.1 || (a.2.1 == b.2.1 && a.2.2 > b.2.2)))

/-- Replace every occurrence of the character `Z` by the string `+00:00`
(model of the Python idiom `s.replace('Z', '+00:00')`). -/
def replaceZChars : List Char → List Char
  | [] => []
  | c :: rest =>
    if c = 'Z' then '+' :: '0' :: '0' :: ':' :: '0' :: '0' :: replaceZChars rest
    else c :: replaceZChars rest

def replaceZ (s : String) : String := ⟨replaceZChars s.data⟩

/-- A parsed ISO-8601 datetime: date, seconds within the day, and an optional
UTC offset in minutes (`none` = naive datetime). -/
structure IsoDt where
  date : Ymd
  secOfDay : Nat
  offMinutes : Option Int
deriving DecidableEq, Repr

/-- Parse a two-digit field. -/
def twoDigits : List Char → Option Nat
  | [a, b] => if a.isDigit && b.isDigit then some (digitsToNat [a, b]) else none
  | _ => none

/-- Parse `HH:MM`, `HH:MM:SS` or `HH:MM:SS.ffffff` (fraction of 3 or 6 digits,
discarded).  Mirrors the time grammar accepted by pre-3.11
`datetime.fromisoformat`. -/
def parseTimeChars (l : List Char) : Option Nat :=
  match splitChar ':' l with
  | [hs, ms] => do
    let h ← twoDigits hs
    let m ← twoDigits ms
    if h < 24 && m < 60 then some (h * 3600 + m * 60) else none
  | [hs, ms, ss] => do
    let h ← twoDigits hs
    let m ← twoDigits ms
    let s ← match splitChar '.' ss with
      | [sec] => twoDigits sec
      | [sec, frac] =>
        if allDigits frac && (frac.length == 3 || frac.length == 6) then
          twoDigits sec
        else none
      | _ => none
    if h < 24 && m < 60 && s < 60 then some (h * 3600 + m * 60 + s) else none
  | _ => none

/-- Parse a `±HH:MM` UTC offset into signed minutes. -/
def parseOffsetChars (sign : Int) (l : List Char) : Option Int :=
  match splitChar ':' l with
  | [hs, ms] => do
    let h ← twoDigits hs
    let m ← twoDigits ms
    if h < 24 && m < 60 then some (sign * (h * 60 + m)) else none
  | _ => none

/-- Split a character list at the FIRST occurrence of `sep`; `none` when `sep`
does not occur. -/
def splitOnceAt (sep : Char) : List Char → Option (List Char × List Char)
  | [] => none
  | c :: rest =>
    if c = sep then some ([], rest)
    else
      match splitOnceAt sep rest with
      | some (a, b) => some (c :: a, b)
      | none => none

/-- Model of `datetime.fromisoformat` (as available before Python 3.11): a
zero-padded `YYYY-MM-DD` date, optionally followed by a single separator
character and a time `HH:MM[:SS[.fff[fff]]]`, optionally followed by a
`+HH:MM` / `-HH:MM` offset. -/
def parseIsoDatetime (s : String) : Option IsoDt :=
  let l := s.data
  let dateChars := l.take 10
  let rest := l.drop 10
  match parseYmdChars dateChars with
  | none => none
  | some d =>
    match rest with
    | [] => some ⟨d, 0, none⟩
    | _sep :: timeChars =>
      match splitOnceAt '+' timeChars with
      | some (t, off) => do
        let sec ← parseTimeChars t
        let o ← parseOffsetChars 1 off
        some ⟨d, sec, some o⟩
      | none =>
        match splitOnceAt '-' timeChars with
        | some (t, off) => do
          let sec ← parseTimeChars t
          let o ← parseOffsetChars (-1) off
          some ⟨d, sec, some o⟩
        | none => do
          let sec ← parseTimeChars timeChars
          some ⟨d, sec, none⟩
where
  /-- `YYYY-MM-DD` with all fields zero-padded, as `fromisoformat` requires. -/
  parseYmdChars (l : List Char) : Option Ymd :=
    match splitChar '-' l with
    | [ys, ms, ds] =>
      if allDigits ys && allDigits ms && allDigits ds &&
          ys.length == 4 && ms.length == 2 && ds.length == 2 then
        let y := digitsToNat ys
        let m := digitsToNat ms
        let d := digitsToNat ds
        if 1 ≤ y && 1 ≤ m && m ≤ 12 && 1 ≤ d && d ≤ daysInMonth y m then
          some (y, m, d)
        else none
      else none
    | _ => none

/-- Days since 1970-01-01 of a civil date (Howard Hinnant's `days_from_civil`
algorithm, restricted to years ≥ 1). -/
def daysFromCivil (d : Ymd) : Int :=
  let y := d.1
  let m := d.2.1
  let day := d.2.2
  let y' := if m ≤ 2 then y - 1 else y
  let era := y' / 400
  let yoe := y' % 400
  let mp := if m > 2 then m - 3 else m + 9
  let doy := (153 * mp + 2) / 5 + day - 1
  let doe := yoe * 365 + yoe / 4 - yoe / 100 + doy
  (era * 146097 + doe : Int) - 719468

/-- POSIX epoch seconds of an aware ISO datetime; `none` for a naive one
(subtracting a naive datetime from `datetime.now(timezone.utc)` raises in
Python, which the callers treat as a parse failure). -/
def isoToEpoch (dt : IsoDt) : Option Int :=
  match dt.offMinutes with
  | none => none
  | some off => some (daysFromCivil dt.date * 86400 + dt.secOfDay - off * 60)

section AssocList

variable {α : Type}

/-- Insertion-ordered map update: replace in place when the key exists,
append otherwise (CPython dict assignment semantics). -/
def assocPut (k : String) (v : α) : List (String × α) → List (String × α)
  | [] => [(k, v)]
  | (k0, v0) :: rest =>
    if k0 = k then (k, v) :: rest else (k0, v0) :: assocPut k v rest

/-- Lookup by key (CPython dict `[]`/`in` semantics). -/
def assocGet (k : String) : List (String × α) → Option α
  | [] => none
  | (k0, v0) :: rest => if k0 = k then some v0 else assocGet k rest

def assocKeys (l : List (String × α)) : List String := l.map Prod.fst

theorem assocGet_put_ne (k k' : String) (v : α) (l : List (String × α))
    (h : k ≠ k') : assocGet k (assocPut k' v l) = assocGet k l := by
  induction l with
  | nil => simp [assocPut, assocGet, Ne.symm h]
  | cons hd tl ih =>
    obtain ⟨k0, v0⟩ := hd
    by_cases hk : k0 = k'
    · subst hk
      simp [assocPut, assocGet, Ne.symm h]
    · simp only [assocPut, if_neg hk]
      by_cases hk0 : k0 = k
      · simp [assocGet, hk0]
      · simp [assocGet, hk0, ih]

theorem assocGet_put_self (k : String) (v : α) (l : List (String × α)) :
    assocGet k (assocPut k v l) = some v := by
  induction l with
  | nil => simp [assocPut, assocGet]
  | cons hd tl ih =>
    obtain ⟨k0, v0⟩ := hd
    by_cases hk : k0 = k
    · simp [assocPut, assocGet, hk]
    · simp [assocPut, assocGet, hk, ih]

theorem assocPut_of_not_mem (k : String) (v : α) (l : List (String × α))
    (h : k ∉ assocKeys l) : assocPut k v l = l ++ [(k, v)] := by
  induction l with
  | nil => simp [assocPut]
  | cons hd tl ih =>
    obtain ⟨k0, v0⟩ := hd
    simp only [assocKeys, List.map_cons, List.mem_cons] at h
    push_neg at h
    simp only [assocPut, if_neg (fun hh : k0 = k => h.1 hh.symm), List.cons_append,
      List.cons.injEq, true_and]
    exact ih h.2

end AssocList

/-! ## Data model (`shared/models.py`) -/

/-- `BottleInfo`: information about a specific bottle for a formula. -/
structure BottleInfo where
  url : String
  sha256 : String
  size : Int
deriving DecidableEq, Repr

/-- `Formula`: a Homebrew formula with its bottles. -/
structure Formula where
  name : String
  version : String
  bottles : List (String × BottleInfo) := []
deriving DecidableEq, Repr

/-- `HashEntry`: an entry in the bottles hash file. -/
structure HashEntry where
  formula_name : String
  version : String
  platform : String
  sha256 : String
  download_date : String
  file_size : Int
deriving DecidableEq, Repr

/-- `HashEntry.validate` succeeding (the Python method raises `ValueError`
exactly when this is false): non-empty formula name, version and platform, a
64-hex-character sha256, a `YYYY-MM-DD` download date, and a positive file
size. -/
def HashEntry.valid (e : HashEntry) : Bool :=
  e.formula_name ≠ "" && e.version ≠ "" && e.platform ≠ "" &&
  e.sha256 ≠ "" && isSha256Hex e.sha256 &&
  e.download_date ≠ "" && isYmdDate e.download_date &&
  e.file_size > 0

/-- The serialized form of one hash entry
(`HashEntry.to_dict`: sha256, download_date, file_size). -/
structure BottleDict where
  sha256 : String
  download_date : String
  file_size : Int
deriving DecidableEq, Repr

def HashEntry.to_dict (e : HashEntry) : BottleDict :=
  ⟨e.sha256, e.download_date, e.file_size⟩

/-- `HashEntry.from_dict`. -/
def HashEntry.from_dict (formula_name version platform : String)
    (d : BottleDict) : HashEntry :=
  ⟨formula_name, version, platform, d.sha256, d.download_date, d.file_size⟩

/-- The serialized hash file document: `last_updated` plus the bottles map. -/
structure HashDict where
  last_updated : Option String
  bottles : List (String × BottleDict)
deriving DecidableEq, Repr

/-- In-memory state of `HashFileManager`: the bottles map and `last_updated`. -/
structure HashFileManager where
  bottles : List (String × HashEntry)
  last_updated : Option String
deriving DecidableEq, Repr

namespace HashFileManager

def HASH_FILE_KEY : String := "bottles_hash.json"
def TEMP_HASH_FILE_KEY : String := "bottles_hash.json.tmp"

/-- `HashFileManager.to_dict`.  `now` stands for the
`datetime.now(timezone.utc)` ISO string substituted when `last_updated` is
unset (`self.last_updated or datetime.now(...)`); Python's `or` also replaces
an empty string, which the `Option`-valued model folds into `getD`. -/
def to_dict (now : String) (m : HashFileManager) : HashDict :=
  { last_updated := some ((m.last_updated.filter (· ≠ "")).getD now)
    bottles := m.bottles.map fun kv => (kv.1, kv.2.to_dict) }

/-- Parse a bottle key `formula-version-platform` the way `load_from_dict`
does: `rsplit('-', 1)` twice, skipping the key when either split fails. -/
def parseBottleKey (k : String) : Option (String × String × String) :=
  match rsplitOnce '-' k.data with
  | none => none
  | some (fv, p) =>
    match rsplitOnce '-' fv with
    | none => none
    | some (f, v) => some (⟨f⟩, ⟨v⟩, ⟨p⟩)

/-- The bottle-loading loop of `load_from_dict`: keys that fail to split are
silently skipped; a parsed entry failing `validate` raises `ValueError`, which
propagates out of `load_from_dict` (modelled as `Except.error`). -/
def loadBottles (acc : List (String × HashEntry)) :
    List (String × BottleDict) → Except String (List (String × HashEntry))
  | [] => .ok acc
  | (k, bd) :: rest =>
    match parseBottleKey k with
    | none => loadBottles acc rest
    | some (f, v, p) =>
      let e := HashEntry.from_dict f v p bd
      if e.valid then loadBottles (assocPut k e acc) rest
      else .error "ValueError"

/-- `HashFileManager.load_from_dict`. -/
def load_from_dict (d : HashDict) : Except String HashFileManager := do
  let bottles ← loadBottles [] d.bottles
  .ok { bottles := bottles, last_updated := d.last_updated }

/-- `HashFileManager.has_bottle`: true only if an entry exists under the
derived key and its stored sha256 equals the candidate bottle's sha256. -/
def has_bottle (m : HashFileManager) (formula : Formula) (platform : String)
    (bottle : BottleInfo) : Bool :=
  let bottle_key := formula.name ++ "-" ++ formula.version ++ "-" ++ platform
  match assocGet bottle_key m.bottles with
  | none => false
  | some e => e.sha256 == bottle.sha256

/-- `HashFileManager.validate` succeeding: every contained entry validates. -/
def validBottles (m : HashFileManager) : Bool :=
  m.bottles.all fun kv => kv.2.valid

/-- `add_bottle`: derive the key, build the entry, validate (raises when
invalid, modelled as `Except.error`), insert overwriting any prior entry. -/
def add_bottle (m : HashFileManager) (formula : Formula) (platform : String)
    (bottle : BottleInfo) (download_date : String) :
    Except String HashFileManager :=
  let bottle_key := formula.name ++ "-" ++ formula.version ++ "-" ++ platform
  let e : HashEntry :=
    ⟨formula.name, formula.version, platform, bottle.sha256, download_date,
      bottle.size⟩
  if e.valid then
    .ok { m with bottles := assocPut bottle_key e m.bottles }
  else .error "ValueError"

/-- The derived key `f"{formula_name}-{version}-{platform}"` of an entry. -/
def derivedKey (e : HashEntry) : String :=
  e.formula_name ++ "-" ++ e.version ++ "-" ++ e.platform

/-- `detect_corruption` (pure part; `today` is `datetime.now(...).date()`).
Returns true when: `validate()` raises (some entry invalid — the
`except (ValueError, KeyError)` branch); `last_updated` missing or empty
(Python truthiness); `last_updated` not parseable by `fromisoformat` after the
`Z` → `+00:00` substitution; duplicate bottle keys; any entry whose derived key
differs from its map key; any file size ≤ 0 or > 10 GiB; any download date
unparseable or in the future.  Dates older than two years only log a warning
and do not flag corruption. -/
def detect_corruption (today : Ymd) (m : HashFileManager) : Bool :=
  if ¬ m.validBottles then true
  else
    match m.last_updated with
    | none => true
    | some lu =>
      if lu = "" then true
      else if (parseIsoDatetime (replaceZ lu)).isNone then true
      else if ¬ (assocKeys m.bottles).Nodup then true
      else if m.bottles.any (fun kv => kv.1 ≠ derivedKey kv.2) then true
      else if m.bottles.any
          (fun kv => kv.2.file_size ≤ 0 ∨
            kv.2.file_size > 10 * 1024 * 1024 * 1024) then true
      else if m.bottles.any (fun kv =>
          match parseYmd kv.2.download_date with
          | none => true
          | some d => ymdLater d today) then true
      else false

/-- One S3 listing entry paired with the result of the later
`get_object_metadata` call for its key (`none` = no metadata, skipped). -/
abbrev S3Listing := List (String × Option Int)

/-- Suffix check used below (`str.endswith`). -/
def strEndsWith (s suf : String) : Bool :=
  List.isSuffixOf suf.data s.data

/-- Processing of one listed object inside `rebuild_from_s3_metadata`:
keep only `<YYYY-MM-DD>/…/<formula>-<version>.<platform>.bottle.tar.gz` keys
with available metadata, and insert an entry with `sha256 = "unknown"`. -/
def rebuildStep (acc : List (String × HashEntry))
    (obj : String × Option Int) : List (String × HashEntry) :=
  let key := obj.1
  if ¬ strEndsWith key ".bottle.tar.gz" then acc
  else
    let path_parts := splitChar '/' key.data
    if path_parts.length < 2 then acc
    else
      let date_folder : String := ⟨path_parts.headI⟩
      let filename : String := ⟨path_parts.getLastI⟩
      if (parseYmd date_folder).isNone then acc
      else if ¬ strEndsWith filename ".bottle.tar.gz" then acc
      else
        let base_name := filename.data.take (filename.data.length - 14)
        let parts := splitChar '.' base_name
        if parts.length < 2 then acc
        else
          let platform : String := ⟨parts.getLastI⟩
          let formula_version := List.intercalate ['.'] parts.dropLast
          match rsplitOnce '-' formula_version with
          | none => acc
          | some (f, v) =>
            match obj.2 with
            | none => acc
            | some size =>
              let formula_name : String := ⟨f⟩
              let version : String := ⟨v⟩
              let bottle_key :=
                formula_name ++ "-" ++ version ++ "-" ++ platform
              let e : HashEntry :=
                ⟨formula_name, version, platform, "unknown", date_folder, size⟩
              assocPut bottle_key e acc

/-- `rebuild_from_s3_metadata`: discard the current map, fold over the listing,
then set `last_updated` to now and report success (the storage wrappers return
failure values instead of raising, so the `except` branch is unreachable). -/
def rebuild_from_s3_metadata (now : String) (objects : S3Listing)
    (_m : HashFileManager) : Bool × HashFileManager :=
  let bottles := objects.foldl rebuildStep []
  (true, { bottles := bottles, last_updated := some now })

end HashFileManager

/-! ## S3 store model and the atomic save protocol -/

/-- The object store restricted to JSON hash-file documents: an
insertion-ordered map from keys to documents. -/
structure S3Store where
  objects : List (String × HashDict)
deriving DecidableEq, Repr

def S3Store.get (k : String) (s : S3Store) : Option HashDict :=
  assocGet k s.objects

def S3Store.put (k : String) (v : HashDict) (s : S3Store) : S3Store :=
  ⟨assocPut k v s.objects⟩

def S3Store.del (k : String) (s : S3Store) : S3Store :=
  ⟨s.objects.filter fun kv => kv.1 ≠ k⟩

/-- Server-side copy: overwrite `dst` with the current content of `src`
(no-op when `src` is absent; the wrapper reports failure in that case,
governed by the behaviour oracle below). -/
def S3Store.copy (src dst : String) (s : S3Store) : S3Store :=
  match s.get src with
  | none => s
  | some v => s.put dst v

/-- Outcome oracle for one `save_to_s3_atomic` run: whether `upload_json`
reports success, what `download_json` of the temp key returns (letting the
read-back differ from what was written models a corrupted temp write), and
whether the server-side copy reports success.  All three wrappers catch their
own exceptions and return failure values, so no exception reaches
`save_to_s3_atomic`. -/
structure S3Behavior where
  uploadOk : Bool
  readback : Option HashDict
  copyOk : Bool
deriving DecidableEq, Repr

/-- Operations issued against the store during a `save_to_s3_atomic` run. -/
inductive S3Op where
  | putTemp
  | getTemp
  | copyTempToCanonical
  | deleteTemp
deriving DecidableEq, Repr

/-- Result of a `save_to_s3_atomic` run: the returned boolean, the updated
manager, the updated store, and the operations issued (in order). -/
structure SaveResult where
  ok : Bool
  manager : HashFileManager
  store : S3Store
  ops : List S3Op
deriving DecidableEq, Repr

namespace HashFileManager

/-- `save_to_s3_atomic`: set `last_updated` to now; upload the document to the
temp key; read it back; verify `last_updated` round-trips exactly; server-side
copy temp → canonical; delete the temp object; `true` only when every step
succeeded.  Each failing step returns `false` immediately. -/
def save_to_s3_atomic (b : S3Behavior) (now : String) (m : HashFileManager)
    (s : S3Store) : SaveResult :=
  let m' := { m with last_updated := some now }
  let data := to_dict now m'
  if ¬ b.uploadOk then
    ⟨false, m', s, [S3Op.putTemp]⟩
  else
    let s1 := s.put TEMP_HASH_FILE_KEY data
    match b.readback with
    | none => ⟨false, m', s1, [S3Op.putTemp, S3Op.getTemp]⟩
    | some temp_data =>
      if temp_data.last_updated ≠ m'.last_updated then
        ⟨false, m', s1, [S3Op.putTemp, S3Op.getTemp]⟩
      else if ¬ b.copyOk then
        ⟨false, m', s1, [S3Op.putTemp, S3Op.getTemp, S3Op.copyTempToCanonical]⟩
      else
        let s2 := s1.copy TEMP_HASH_FILE_KEY HASH_FILE_KEY
        let s3 := s2.del TEMP_HASH_FILE_KEY
        ⟨true, m', s3,
          [S3Op.putTemp, S3Op.getTemp, S3Op.copyTempToCanonical,
            S3Op.deleteTemp]⟩

end HashFileManager

/-! ## Error handling (`shared/error_handling.py`) -/

/-- `ErrorType`: kinds of errors during sync operations. -/
inductive ErrorType where
  | network_error
  | s3_error
  | validation_error
  | hash_corruption
  | resource_exhaustion
  | timeout_error
  | authentication_error
  | unknown_error
deriving DecidableEq, Repr

/-- `RecoveryAction`. -/
inductive RecoveryAction where
  | retry
  | skip
  | abort
  | rebuild
  | fallback
deriving DecidableEq, Repr

/-- The fields of `ErrorContext` consulted by `determine_recovery_action`. -/
structure ErrorContext where
  error_type : ErrorType
  error_message : String
  attempt_number : Nat
deriving DecidableEq, Repr

/-- Substring containment (Python `in` on strings). -/
def strContains (s pat : String) : Bool :=
  go s.data
where
  go : List Char → Bool
    | [] => List.isPrefixOf pat.data []
    | c :: rest => List.isPrefixOf pat.data (c :: rest) || go rest

/-- `ErrorClassifier.determine_recovery_action`, translated branch by
branch. -/
def determine_recovery_action (ctx : ErrorContext) : RecoveryAction :=
  let attempt := ctx.attempt_number
  if ctx.error_type = .network_error then
    if attempt < 5 then .retry else .skip
  else if ctx.error_type = .s3_error then
    if strContains ctx.error_message "NoSuchKey" then .skip
    else if attempt < 3 then .retry else .skip
  else if ctx.error_type = .hash_corruption then .rebuild
  else if ctx.error_type = .resource_exhaustion then
    if attempt < 10 then .retry else .abort
  else if ctx.error_type = .validation_error then .skip
  else if ctx.error_type = .authentication_error then .abort
  else if ctx.error_type = .timeout_error then
    if attempt < 3 then .retry else .skip
  else
    if attempt < 2 then .retry else .skip

/-- Modelled from the spec: the §4.2 recovery decision table, written as a
case split on the error type exactly as the table reads (network → retry while
attempt < 5 else skip; storage → skip on a missing-key message, else retry
while attempt < 3 else skip; hash_corruption → rebuild; resource_exhaustion →
retry while attempt < 10 else abort; validation → skip; authentication →
abort; timeout → retry while attempt < 3 else skip; unknown → retry at the
first attempt, skip from attempt 2 on). -/
def specRecoveryTable (ctx : ErrorContext) : RecoveryAction :=
  match ctx.error_type with
  | .network_error =>
    if ctx.attempt_number < 5 then .retry else .skip
  | .s3_error =>
    if strContains ctx.error_message "NoSuchKey" then .skip
    else if ctx.attempt_number < 3 then .retry else .skip
  | .hash_corruption => .rebuild
  | .resource_exhaustion =>
    if ctx.attempt_number < 10 then .retry else .abort
  | .validation_error => .skip
  | .authentication_error => .abort
  | .timeout_error =>
    if ctx.attempt_number < 3 then .retry else .skip
  | .unknown_error =>
    if ctx.attempt_number < 2 then .retry else .skip

/-- `RetryConfig`; delays are Python floats, modelled as rationals. -/
structure RetryConfig where
  max_attempts : Nat := 3
  base_delay : ℚ := 1
  max_delay : ℚ := 60
  exponential_base : ℚ := 2
  jitter : Bool := true
  backoff_multiplier : ℚ := 1
deriving DecidableEq, Repr

namespace RetryHandler

/-- `RetryHandler.calculate_delay`.  `u` is the draw of
`random.uniform(-1, 1)` scaled below by the 10% jitter range; it is unused
when `jitter` is false. -/
def calculate_delay (cfg : RetryConfig) (u : ℚ) (attempt : Nat) : ℚ :=
  if attempt ≤ 1 then 0
  else
    let delay := cfg.base_delay * cfg.exponential_base ^ (attempt - 2)
    let delay := delay * cfg.backoff_multiplier
    let delay := min delay cfg.max_delay
    let delay := if cfg.jitter then delay + delay * (1 / 10) * u else delay
    max 0 delay

end RetryHandler

/-- The Python exception classes that drive `should_retry` and the error
classifier.  `clientError` carries the provider error code from
`error.response['Error']['Code']`. -/
inductive PyExc where
  | connectionError (msg : String)
  | timeoutError (msg : String)
  | clientError (code : String) (msg : String)
  | valueError (msg : String)
  | keyError (msg : String)
  | permissionError (msg : String)
  | otherError (msg : String)
deriving DecidableEq, Repr

/-- The retryable provider error codes of `should_retry`. -/
def retryableCodes : List String :=
  ["Throttling", "ThrottlingException", "RequestLimitExceeded",
   "ServiceUnavailable", "InternalError", "SlowDown"]

/-- The per-exception-class part of `should_retry` (everything after the
attempt-budget check): connection/timeout → retry; client errors → only the
retryable codes; value/key/permission errors → never; anything else → retry
by default. -/
def isRetryableErr : PyExc → Bool
  | .connectionError _ => true
  | .timeoutError _ => true
  | .clientError code _ => retryableCodes.contains code
  | .valueError _ => false
  | .keyError _ => false
  | .permissionError _ => false
  | .otherError _ => true

namespace RetryHandler

/-- `RetryHandler.should_retry`. -/
def should_retry (cfg : RetryConfig) (e : PyExc) (attempt : Nat) : Bool :=
  if cfg.max_attempts ≤ attempt then false
  else isRetryableErr e

/-- The `for attempt in range(1, max_attempts + 1)` loop of `retry_sync`.
`f attempt` is the outcome of invoking the wrapped function on that attempt;
`count` counts invocations; `lastE` is `last_exception`.  When the loop ends
(fuel exhausted, only possible with `max_attempts = 0`) the trailing
`raise last_exception` raises; with no recorded exception that is itself an
error (`raise None`), modelled by the `otherError` default. -/
def retrySyncGo {α : Type} (cfg : RetryConfig) (f : Nat → Except PyExc α) :
    Nat → Option PyExc → Nat → Nat → Except PyExc α × Nat
  | count, lastE, _a, 0 =>
    (.error (lastE.getD (.otherError "TypeError: raise None")), count)
  | count, _lastE, a, fuel + 1 =>
    match f a with
    | .ok v => (.ok v, count + 1)
    | .error e =>
      if should_retry cfg e a then retrySyncGo cfg f (count + 1) (some e) (a + 1) fuel
      else (.error e, count + 1)

/-- `RetryHandler.retry_sync`: returns the overall outcome (re-raising the
last exception when all attempts fail) paired with the number of times the
wrapped function was invoked. -/
def retry_sync {α : Type} (cfg : RetryConfig) (f : Nat → Except PyExc α) :
    Except PyExc α × Nat :=
  retrySyncGo cfg f 0 none 1 cfg.max_attempts

end RetryHandler

/-! ## Partial sync recovery -/

/-- `RecoveryState`. -/
structure RecoveryState where
  sync_id : String
  start_time : String
  last_successful_bottle : Option String := none
  completed_bottles : List String := []
  failed_bottles : List String := []
  skipped_bottles : List String := []
  total_bottles : Nat := 0
  recovery_checkpoint : Option String := none
deriving DecidableEq, Repr

namespace PartialSyncRecovery

/-- `update_progress`: append the bottle to the list for its status when not
already present (completion also updates `last_successful_bottle`), then
checkpoint whenever `len(completed_bottles) % 10 == 0`.  `checkpointTime` is
the `datetime.now(...)` stamp; the returned boolean records whether
`save_recovery_state` was invoked. -/
def update_progress (checkpointTime : String) (state : RecoveryState)
    (bottle_id : String) (status : String) : RecoveryState × Bool :=
  let st :=
    if status = "completed" then
      let completed :=
        if bottle_id ∈ state.completed_bottles then state.completed_bottles
        else state.completed_bottles ++ [bottle_id]
      { state with completed_bottles := completed,
                   last_successful_bottle := some bottle_id }
    else if status = "failed" then
      let failed :=
        if bottle_id ∈ state.failed_bottles then state.failed_bottles
        else state.failed_bottles ++ [bottle_id]
      { state with failed_bottles := failed }
    else if status = "skipped" then
      let skipped :=
        if bottle_id ∈ state.skipped_bottles then state.skipped_bottles
        else state.skipped_bottles ++ [bottle_id]
      { state with skipped_bottles := skipped }
    else state
  if st.completed_bottles.length % 10 == 0 then
    ({ st with recovery_checkpoint := some checkpointTime }, true)
  else (st, false)

/-- `load_recovery_state`: the stored document (already parsed into a
`RecoveryState`), filtered by the optional `sync_id` check. -/
def load_recovery_state (sync_id : Option String)
    (stored : Option RecoveryState) : Option RecoveryState :=
  match stored with
  | none => none
  | some st =>
    match sync_id with
    | some sid => if st.sync_id ≠ sid then none else some st
    | none => some st

/-- `should_resume_sync` at wall-clock epoch second `nowEpoch`.  Returns
`(should_resume, recovery_state)` plus the stored document after the call
(`none` when the stale state was cleared).  Parsing `start_time` applies the
`Z` → `+00:00` substitution then `fromisoformat`; a parse failure — or a naive
timestamp, whose subtraction from an aware `now` raises — lands in the
`except` branch, which returns `(False, None)` without clearing. -/
def should_resume_sync (nowEpoch : Int) (current_sync_id : String)
    (stored : Option RecoveryState) :
    Bool × Option RecoveryState × Option RecoveryState :=
  match load_recovery_state none stored with
  | none => (false, none, stored)
  | some recovery_state =>
    if recovery_state.sync_id = current_sync_id then
      (true, some recovery_state, stored)
    else
      match (parseIsoDatetime (replaceZ recovery_state.start_time)).bind
          isoToEpoch with
      | none => (false, none, stored)
      | some startEpoch =>
        if nowEpoch - startEpoch < 24 * 3600 then
          (true, some recovery_state, stored)
        else
          (false, none, none)

end PartialSyncRecovery

/-! ## Helper lemmas -/

theorem mem_assocPut {α : Type} (k : String) (v : α) (l : List (String × α)) :
    ∀ kv ∈ assocPut k v l, kv = (k, v) ∨ kv ∈ l := by
  induction l with
  | nil => simp [assocPut]
  | cons hd tl ih =>
    obtain ⟨k0, v0⟩ := hd
    intro kv hkv
    by_cases hk : k0 = k
    · simp only [assocPut, if_pos hk, List.mem_cons] at hkv
      rcases hkv with h | h
      · exact Or.inl h
      · exact Or.inr (List.mem_cons_of_mem _ h)
    · simp only [assocPut, if_neg hk, List.mem_cons] at hkv
      rcases hkv with h | h
      · exact Or.inr (by simp [h])
      · rcases ih kv h with h' | h'
        · exact Or.inl h'
        · exact Or.inr (List.mem_cons_of_mem _ h')

theorem assocGet_mem {α : Type} (k : String) (l : List (String × α)) (v : α)
    (h : assocGet k l = some v) : (k, v) ∈ l := by
  induction l with
  | nil => simp [assocGet] at h
  | cons hd tl ih =>
    obtain ⟨k0, v0⟩ := hd
    simp only [assocGet] at h
    by_cases hk : k0 = k
    · rw [if_pos hk] at h
      injection h with h'
      subst hk
      subst h'
      exact List.mem_cons_self _ _
    · rw [if_neg hk] at h
      exact List.mem_cons_of_mem _ (ih h)

/-! ## C2: the recovery decision table -/

/-- C2: for every `ErrorContext`, `determine_recovery_action` returns exactly
the action of the §4.2 decision table at every attempt number, including the
boundaries: network → retry while attempt < 5 else skip; storage → skip if the
message indicates a missing key, else retry while attempt < 3 else skip;
hash_corruption → rebuild; resource_exhaustion → retry while attempt < 10 else
abort; validation → skip; authentication → abort; timeout → retry while
attempt < 3 else skip; unknown → retry at attempt 1, skip from attempt 2 on. -/
theorem determine_recovery_action_matches_table (ctx : ErrorContext) :
    determine_recovery_action ctx = specRecoveryTable ctx := by
  obtain ⟨et, msg, attempt⟩ := ctx
  cases et <;> simp [determine_recovery_action, specRecoveryTable]

/-! ## C10: a rebuilt hash file reports itself corrupted -/

/-- C10: any manager holding at least one entry whose sha256 is the sentinel
`"unknown"` (as every entry produced by `rebuild_from_s3_metadata` is) fails
entry validation — `"unknown"` is not 64 hex characters — so
`detect_corruption` returns true. -/
theorem detect_corruption_of_unknown_sha (today : Ymd) (m : HashFileManager)
    (h : ∃ kv ∈ m.bottles, kv.2.sha256 = "unknown") :
    HashFileManager.detect_corruption today m = true := by
  obtain ⟨kv, hmem, hsha⟩ := h
  have hhex : isSha256Hex kv.2.sha256 = false := by rw [hsha]; decide
  have hvalid : kv.2.valid = false := by
    simp [HashEntry.valid, hhex]
  have hvb : m.validBottles = false := by
    rw [HashFileManager.validBottles]
    rcases hall : m.bottles.all (fun kv => kv.2.valid) with _ | _
    · rfl
    · rw [List.all_eq_true] at hall
      exact absurd (hall kv hmem) (by simp [hvalid])
  simp [HashFileManager.detect_corruption, hvb]

/-- C10 witness: a concrete one-entry manager with `sha256 = "unknown"` is
reported corrupted. -/
theorem detect_corruption_of_unknown_sha_witness :
    HashFileManager.detect_corruption (2026, 10, 12)
      ⟨[("foo-1.0-arm64_sonoma",
          ⟨"foo", "1.0", "arm64_sonoma", "unknown", "2024-01-15", 100⟩)],
        some "2026-01-01T00:00:00Z"⟩ = true :=
  detect_corruption_of_unknown_sha (2026, 10, 12) _
    ⟨_, List.mem_cons_self _ _, rfl⟩

/-! ## C9: rebuilt entries carry the `"unknown"` sentinel -/

/-- `rebuildStep` either keeps the accumulator or inserts one entry carrying
the `"unknown"` sha256 sentinel. -/
theorem rebuildStep_cases (acc : List (String × HashEntry))
    (obj : String × Option Int) :
    HashFileManager.rebuildStep acc obj = acc ∨
      ∃ k e, HashEntry.sha256 e = "unknown" ∧
        HashFileManager.rebuildStep acc obj = assocPut k e acc := by
  unfold HashFileManager.rebuildStep
  dsimp only
  repeat' split
  all_goals
    first
    | exact Or.inl rfl
    | exact Or.inr ⟨_, _, rfl, rfl⟩

theorem rebuildStep_sha256 (acc : List (String × HashEntry))
    (obj : String × Option Int)
    (h : ∀ kv ∈ acc, kv.2.sha256 = "unknown") :
    ∀ kv ∈ HashFileManager.rebuildStep acc obj, kv.2.sha256 = "unknown" := by
  rcases rebuildStep_cases acc obj with hcase | ⟨k, e, hsha, hcase⟩
  · rw [hcase]; exact h
  · rw [hcase]
    intro kv hkv
    rcases mem_assocPut _ _ _ kv hkv with heq | hmem
    · rw [heq]; exact hsha
    · exact h kv hmem

theorem rebuildFold_sha256 (objects : HashFileManager.S3Listing) :
    ∀ acc, (∀ kv ∈ acc, kv.2.sha256 = "unknown") →
      ∀ kv ∈ objects.foldl HashFileManager.rebuildStep acc,
        kv.2.sha256 = "unknown" := by
  induction objects with
  | nil => intro acc h; simpa using h
  | cons hd tl ih =>
    intro acc h
    simpa using ih (HashFileManager.rebuildStep acc hd)
      (rebuildStep_sha256 acc hd h)

/-- C9: every entry produced by `rebuild_from_s3_metadata` has
`sha256 = "unknown"`, so a subsequent `has_bottle` check against any bottle
carrying a real 64-hex sha256 returns false — the rebuilt entry counts as not
yet synced. -/
theorem rebuild_entries_unknown_and_not_synced (now : String)
    (objects : HashFileManager.S3Listing) (m : HashFileManager) (formula : Formula)
    (platform : String) (bottle : BottleInfo)
    (hb : isSha256Hex bottle.sha256 = true) :
    (∀ kv ∈ (HashFileManager.rebuild_from_s3_metadata now objects m).2.bottles,
      kv.2.sha256 = "unknown") ∧
    (HashFileManager.rebuild_from_s3_metadata now objects m).2.has_bottle
      formula platform bottle = false := by
  have hall :
      ∀ kv ∈ (HashFileManager.rebuild_from_s3_metadata now objects m).2.bottles,
        kv.2.sha256 = "unknown" := by
    simp only [HashFileManager.rebuild_from_s3_metadata]
    exact rebuildFold_sha256 objects [] (by simp)
  refine ⟨hall, ?_⟩
  rw [HashFileManager.has_bottle]
  rcases hget : assocGet (formula.name ++ "-" ++ formula.version ++ "-" ++ platform)
      (HashFileManager.rebuild_from_s3_metadata now objects m).2.bottles with _ | e
  · simp [hget]
  · have hsha : e.sha256 = "unknown" := hall _ (assocGet_mem _ _ _ hget)
    have hne : e.sha256 ≠ bottle.sha256 := by
      intro hcontra
      rw [hsha] at hcontra
      rw [← hcontra] at hb
      exact absurd hb (by decide)
    simp [hget, hne]

/-- C9 witness: one valid listed object yields a rebuilt entry with the
`"unknown"` sentinel, and `has_bottle` with a real sha256 reports it as not
synced. -/
theorem rebuild_entries_unknown_and_not_synced_witness :
    isSha256Hex
      "aaaaaaaaaaaaaaaaaaaaaaaaaaaaaaaaaaaaaaaaaaaaaaaaaaaaaaaaaaaaaaaa"
      = true ∧
    (HashFileManager.rebuild_from_s3_metadata "2026-01-01T00:00:00Z"
        [("2024-01-15/foo-1.0.arm64_sonoma.bottle.tar.gz", some 100)]
        ⟨[], none⟩).2.has_bottle ⟨"foo", "1.0", []⟩ "arm64_sonoma"
      ⟨"https://example.com/x",
        "aaaaaaaaaaaaaaaaaaaaaaaaaaaaaaaaaaaaaaaaaaaaaaaaaaaaaaaaaaaaaaaa",
        100⟩ = false :=
  ⟨by decide,
    (rebuild_entries_unknown_and_not_synced "2026-01-01T00:00:00Z"
      [("2024-01-15/foo-1.0.arm64_sonoma.bottle.tar.gz", some 100)]
      ⟨[], none⟩ ⟨"foo", "1.0", []⟩ "arm64_sonoma"
      ⟨"https://example.com/x",
        "aaaaaaaaaaaaaaaaaaaaaaaaaaaaaaaaaaaaaaaaaaaaaaaaaaaaaaaaaaaaaaaa",
        100⟩ (by decide)).2⟩

/-! ## C5: retry budget exhaustion and non-retryable short-circuit -/

theorem retrySyncGo_step {α : Type} (cfg : RetryConfig)
    (f : Nat → Except PyExc α) (count : Nat) (lastE : Option PyExc)
    (a fuel : Nat) (e : PyExc) (hf : f a = .error e)
    (hsr : RetryHandler.should_retry cfg e a = true) :
    RetryHandler.retrySyncGo cfg f count lastE a (fuel + 1) =
      RetryHandler.retrySyncGo cfg f (count + 1) (some e) (a + 1) fuel := by
  conv_lhs => rw [RetryHandler.retrySyncGo]
  rw [hf]
  simp [hsr]

theorem retrySyncGo_stop {α : Type} (cfg : RetryConfig)
    (f : Nat → Except PyExc α) (count : Nat) (lastE : Option PyExc)
    (a fuel : Nat) (e : PyExc) (hf : f a = .error e)
    (hsr : RetryHandler.should_retry cfg e a = false) :
    RetryHandler.retrySyncGo cfg f count lastE a (fuel + 1) =
      (.error e, count + 1) := by
  conv_lhs => rw [RetryHandler.retrySyncGo]
  rw [hf]
  simp [hsr]

/-- C5: with `max_attempts = 3` and a function that always raises a retryable
exception, `retry_sync` invokes it exactly 3 times and re-raises the last
exception (never a sentinel value); a non-retryable exception such as
`ValueError` on the first attempt yields exactly 1 invocation for any
`max_attempts ≥ 1`. -/
theorem retry_sync_exhaustion_and_nonretryable :
    (∀ (α : Type) (cfg : RetryConfig) (f : Nat → Except PyExc α)
        (errs : Nat → PyExc),
      cfg.max_attempts = 3 →
      (∀ i, 1 ≤ i → i ≤ 3 → f i = .error (errs i)) →
      (∀ i, 1 ≤ i → i ≤ 3 → isRetryableErr (errs i) = true) →
      RetryHandler.retry_sync cfg f = (.error (errs 3), 3)) ∧
    (∀ (α : Type) (cfg : RetryConfig) (f : Nat → Except PyExc α)
        (msg : String),
      1 ≤ cfg.max_attempts →
      f 1 = .error (.valueError msg) →
      RetryHandler.retry_sync cfg f = (.error (.valueError msg), 1)) := by
  constructor
  · intro α cfg f errs hmax hf hr
    have h1 := hf 1 (by norm_num) (by norm_num)
    have h2 := hf 2 (by norm_num) (by norm_num)
    have h3 := hf 3 (by norm_num) (by norm_num)
    have r1 := hr 1 (by norm_num) (by norm_num)
    have r2 := hr 2 (by norm_num) (by norm_num)
    have sr1 : RetryHandler.should_retry cfg (errs 1) 1 = true := by
      simp [RetryHandler.should_retry, hmax, r1]
    have sr2 : RetryHandler.should_retry cfg (errs 2) 2 = true := by
      simp [RetryHandler.should_retry, hmax, r2]
    have sr3 : RetryHandler.should_retry cfg (errs 3) 3 = false := by
      simp [RetryHandler.should_retry, hmax]
    unfold RetryHandler.retry_sync
    rw [hmax]
    calc RetryHandler.retrySyncGo cfg f 0 none 1 3
        = RetryHandler.retrySyncGo cfg f 1 (some (errs 1)) 2 2 :=
          retrySyncGo_step cfg f 0 none 1 2 (errs 1) h1 sr1
      _ = RetryHandler.retrySyncGo cfg f 2 (some (errs 2)) 3 1 :=
          retrySyncGo_step cfg f 1 (some (errs 1)) 2 1 (errs 2) h2 sr2
      _ = (.error (errs 3), 3) :=
          retrySyncGo_stop cfg f 2 (some (errs 2)) 3 0 (errs 3) h3 sr3
  · intro α cfg f msg hmax hf
    obtain ⟨n, hn⟩ : ∃ n, cfg.max_attempts = n + 1 :=
      ⟨cfg.max_attempts - 1, by omega⟩
    have sr : RetryHandler.should_retry cfg (.valueError msg) 1 = false := by
      simp [RetryHandler.should_retry, isRetryableErr]
    unfold RetryHandler.retry_sync
    rw [hn]
    exact retrySyncGo_stop cfg f 0 none 1 n (.valueError msg) hf sr

/-- C5 witness: an always-failing connection error with `max_attempts = 3`
gives 3 invocations re-raising the last exception; a `ValueError` with
`max_attempts = 5` gives 1 invocation. -/
theorem retry_sync_exhaustion_and_nonretryable_witness :
    RetryHandler.retry_sync (α := Unit) { max_attempts := 3 }
        (fun _ => .error (.connectionError "boom")) =
      (.error (.connectionError "boom"), 3) ∧
    RetryHandler.retry_sync (α := Unit) { max_attempts := 5 }
        (fun _ => .error (.valueError "bad input")) =
      (.error (.valueError "bad input"), 1) :=
  ⟨retry_sync_exhaustion_and_nonretryable.1 Unit { max_attempts := 3 }
      (fun _ => .error (.connectionError "boom"))
      (fun _ => .connectionError "boom") rfl
      (fun _ _ _ => rfl) (fun _ _ _ => rfl),
    retry_sync_exhaustion_and_nonretryable.2 Unit { max_attempts := 5 }
      (fun _ => .error (.valueError "bad input")) "bad input"
      (by norm_num) rfl⟩

/-! ## C3: reclassified bottles are not moved between progress lists -/

/-- C3 counterexample: report a bottle as failed, then as completed — the
bottle is now in BOTH `completed_bottles` and `failed_bottles`;
`update_progress` only appends, it never removes, so "last write wins" does
not hold. -/
theorem update_progress_reclassified_in_both :
    "bottle-a" ∈
      ((PartialSyncRecovery.update_progress "t2"
        (PartialSyncRecovery.update_progress "t1"
          { sync_id := "sync-1", start_time := "2026-01-01T00:00:00Z" }
          "bottle-a" "failed").1
        "bottle-a" "completed").1).completed_bottles ∧
    "bottle-a" ∈
      ((PartialSyncRecovery.update_progress "t2"
        (PartialSyncRecovery.update_progress "t1"
          { sync_id := "sync-1", start_time := "2026-01-01T00:00:00Z" }
          "bottle-a" "failed").1
        "bottle-a" "completed").1).failed_bottles := by
  decide

/-- The guarded append used by `update_progress` keeps a duplicate-free list
duplicate-free. -/
theorem appendIfAbsent_nodup (l : List String) (b : String) (h : l.Nodup) :
    (if b ∈ l then l else l ++ [b]).Nodup := by
  split
  · exact h
  · simp_all [List.nodup_append]

theorem appendIfAbsent_mem_old (l : List String) (b : String) :
    ∀ x ∈ l, x ∈ (if b ∈ l then l else l ++ [b]) := by
  intro x hx
  split <;> simp [hx]

theorem appendIfAbsent_mem_new (l : List String) (b : String) :
    b ∈ (if b ∈ l then l else l ++ [b]) := by
  split <;> simp_all

/-- The `completed_bottles` list after `update_progress`. -/
theorem update_progress_completed (ct : String) (s : RecoveryState)
    (b : String) (status : String) :
    ((PartialSyncRecovery.update_progress ct s b status).1).completed_bottles =
      (if status = "completed" then
        (if b ∈ s.completed_bottles then s.completed_bottles
         else s.completed_bottles ++ [b])
       else s.completed_bottles) := by
  unfold PartialSyncRecovery.update_progress
  dsimp only
  split_ifs <;> simp_all

/-- The `failed_bottles` list after `update_progress`. -/
theorem update_progress_failed (ct : String) (s : RecoveryState)
    (b : String) (status : String) :
    ((PartialSyncRecovery.update_progress ct s b status).1).failed_bottles =
      (if status ≠ "completed" ∧ status = "failed" then
        (if b ∈ s.failed_bottles then s.failed_bottles
         else s.failed_bottles ++ [b])
       else s.failed_bottles) := by
  unfold PartialSyncRecovery.update_progress
  dsimp only
  split_ifs <;> simp_all

/-- The `skipped_bottles` list after `update_progress`. -/
theorem update_progress_skipped (ct : String) (s : RecoveryState)
    (b : String) (status : String) :
    ((PartialSyncRecovery.update_progress ct s b status).1).skipped_bottles =
      (if status ≠ "completed" ∧ status ≠ "failed" ∧ status = "skipped" then
        (if b ∈ s.skipped_bottles then s.skipped_bottles
         else s.skipped_bottles ++ [b])
       else s.skipped_bottles) := by
  unfold PartialSyncRecovery.update_progress
  dsimp only
  split_ifs <;> simp_all

/-- C3 as amended: `update_progress` appends the bottle to the collection for
its reported status only when it is not already there — so each single
collection stays duplicate-free — and it never removes a bottle from any
collection; a bottle reported again under a different status is added to the
new collection while remaining in the old one. -/
theorem update_progress_append_only (ct : String) (s : RecoveryState)
    (b : String) (status : String) :
    (s.completed_bottles.Nodup →
      ((PartialSyncRecovery.update_progress ct s b status).1).completed_bottles.Nodup) ∧
    (s.failed_bottles.Nodup →
      ((PartialSyncRecovery.update_progress ct s b status).1).failed_bottles.Nodup) ∧
    (s.skipped_bottles.Nodup →
      ((PartialSyncRecovery.update_progress ct s b status).1).skipped_bottles.Nodup) ∧
    (∀ x ∈ s.completed_bottles,
      x ∈ ((PartialSyncRecovery.update_progress ct s b status).1).completed_bottles) ∧
    (∀ x ∈ s.failed_bottles,
      x ∈ ((PartialSyncRecovery.update_progress ct s b status).1).failed_bottles) ∧
    (∀ x ∈ s.skipped_bottles,
      x ∈ ((PartialSyncRecovery.update_progress ct s b status).1).skipped_bottles) ∧
    (status = "completed" →
      b ∈ ((PartialSyncRecovery.update_progress ct s b status).1).completed_bottles) ∧
    (status = "failed" →
      b ∈ ((PartialSyncRecovery.update_progress ct s b status).1).failed_bottles) ∧
    (status = "skipped" →
      b ∈ ((PartialSyncRecovery.update_progress ct s b status).1).skipped_bottles) := by
  rw [update_progress_completed, update_progress_failed, update_progress_skipped]
  refine ⟨?_, ?_, ?_, ?_, ?_, ?_, ?_, ?_, ?_⟩
  · intro h
    split
    · exact appendIfAbsent_nodup _ _ h
    · exact h
  · intro h
    split
    · exact appendIfAbsent_nodup _ _ h
    · exact h
  · intro h
    split
    · exact appendIfAbsent_nodup _ _ h
    · exact h
  · intro x hx
    split
    · exact appendIfAbsent_mem_old _ _ x hx
    · exact hx
  · intro x hx
    split
    · exact appendIfAbsent_mem_old _ _ x hx
    · exact hx
  · intro x hx
    split
    · exact appendIfAbsent_mem_old _ _ x hx
    · exact hx
  · intro hc
    rw [if_pos hc]
    exact appendIfAbsent_mem_new _ _
  · intro hf
    have hc : status ≠ "completed" := by
      rw [hf]; decide
    rw [if_pos ⟨hc, hf⟩]
    exact appendIfAbsent_mem_new _ _
  · intro hs
    have hc : status ≠ "completed" := by
      rw [hs]; decide
    have hf : status ≠ "failed" := by
      rw [hs]; decide
    rw [if_pos ⟨hc, hf, hs⟩]
    exact appendIfAbsent_mem_new _ _

/-- C3 amended witness: at a concrete state with duplicate-free lists, the
updated lists stay duplicate-free, nothing is removed, and the reported
bottle lands in its status's list. -/
theorem update_progress_append_only_witness :
    ([] : List String).Nodup ∧
    "bottle-a" ∈ ((PartialSyncRecovery.update_progress "t1"
      { sync_id := "sync-1", start_time := "2026-01-01T00:00:00Z" }
      "bottle-a" "failed").1).failed_bottles :=
  ⟨List.nodup_nil,
    (update_progress_append_only "t1"
      { sync_id := "sync-1", start_time := "2026-01-01T00:00:00Z" }
      "bottle-a" "failed").2.2.2.2.2.2.2.1 rfl⟩

/-! ## C1 and C4: the atomic save protocol -/

/-- C1: when the read-back of the temp object exists but its `last_updated`
does not round-trip exactly, `save_to_s3_atomic` returns false, the canonical
key's content is unchanged, and no copy to the canonical key was issued. -/
theorem save_atomic_mismatch_leaves_canonical (b : S3Behavior) (now : String)
    (m : HashFileManager) (s : S3Store) (d : HashDict)
    (hu : b.uploadOk = true) (hr : b.readback = some d)
    (hm : d.last_updated ≠ some now) :
    (HashFileManager.save_to_s3_atomic b now m s).ok = false ∧
    ((HashFileManager.save_to_s3_atomic b now m s).store).get
        HashFileManager.HASH_FILE_KEY = s.get HashFileManager.HASH_FILE_KEY ∧
    S3Op.copyTempToCanonical ∉ (HashFileManager.save_to_s3_atomic b now m s).ops := by
  unfold HashFileManager.save_to_s3_atomic
  rw [hu, hr, if_neg (by simp)]
  dsimp only
  rw [if_pos (by simpa using hm)]
  refine ⟨rfl, ?_, by simp⟩
  unfold S3Store.get S3Store.put
  exact assocGet_put_ne _ _ _ _ (by decide)

/-- C1 witness: a corrupted read-back (`last_updated` differing from the one
just written) at a concrete store leaves the canonical key's prior document in
place and returns false. -/
theorem save_atomic_mismatch_leaves_canonical_witness :
    (HashFileManager.save_to_s3_atomic
      ⟨true, some ⟨some "CORRUPTED", []⟩, true⟩ "2026-01-01T00:00:00Z"
      ⟨[], none⟩
      ⟨[(HashFileManager.HASH_FILE_KEY, ⟨some "OLD", []⟩)]⟩).ok = false ∧
    ((HashFileManager.save_to_s3_atomic
      ⟨true, some ⟨some "CORRUPTED", []⟩, true⟩ "2026-01-01T00:00:00Z"
      ⟨[], none⟩
      ⟨[(HashFileManager.HASH_FILE_KEY, ⟨some "OLD", []⟩)]⟩).store).get
        HashFileManager.HASH_FILE_KEY =
      (⟨[(HashFileManager.HASH_FILE_KEY, ⟨some "OLD", []⟩)]⟩ : S3Store).get
        HashFileManager.HASH_FILE_KEY ∧
    S3Op.copyTempToCanonical ∉
      (HashFileManager.save_to_s3_atomic
        ⟨true, some ⟨some "CORRUPTED", []⟩, true⟩ "2026-01-01T00:00:00Z"
        ⟨[], none⟩
        ⟨[(HashFileManager.HASH_FILE_KEY, ⟨some "OLD", []⟩)]⟩).ops :=
  save_atomic_mismatch_leaves_canonical _ _ _ _ _ rfl rfl (by decide)

/-- C4 counterexample: when the temp upload itself reports failure,
`save_to_s3_atomic` returns false but NEVER attempts to delete the temp
object — no deletion is issued on this failing path, so "temp cleanup happens
on every failing path" is false of the code. -/
theorem save_atomic_upload_failure_no_cleanup :
    (HashFileManager.save_to_s3_atomic ⟨false, none, false⟩
      "2026-01-01T00:00:00Z" ⟨[], none⟩ ⟨[]⟩).ok = false ∧
    S3Op.deleteTemp ∉
      (HashFileManager.save_to_s3_atomic ⟨false, none, false⟩
        "2026-01-01T00:00:00Z" ⟨[], none⟩ ⟨[]⟩).ops := by
  decide

/-- C4 as amended: on any step failure (temp upload reporting failure,
read-back returning nothing, verification mismatch, or the copy to canonical
reporting failure) `save_to_s3_atomic` returns false, but WITHOUT attempting
to delete the temp object: the temp deletion is issued only on the fully
successful path.  (The `except` handler's cleanup exists in the code but the
storage wrappers catch their own exceptions and return failure values, so no
failing path reaches it.) -/
theorem save_atomic_failure_returns_false_without_cleanup (b : S3Behavior)
    (now : String) (m : HashFileManager) (s : S3Store)
    (h : b.uploadOk = false ∨ b.readback = none ∨
      (∃ d, b.readback = some d ∧ d.last_updated ≠ some now) ∨
      b.copyOk = false) :
    (HashFileManager.save_to_s3_atomic b now m s).ok = false ∧
    S3Op.deleteTemp ∉ (HashFileManager.save_to_s3_atomic b now m s).ops := by
  unfold HashFileManager.save_to_s3_atomic
  rcases h with hu | hrb | ⟨d, hrb, hm⟩ | hc
  · rw [hu, if_pos (by simp)]
    exact ⟨rfl, by simp⟩
  · rcases hu : b.uploadOk with _ | _
    · rw [if_pos (by simp)]
      exact ⟨rfl, by simp⟩
    · rw [hrb, if_neg (by simp)]
      exact ⟨rfl, by simp⟩
  · rcases hu : b.uploadOk with _ | _
    · rw [if_pos (by simp)]
      exact ⟨rfl, by simp⟩
    · rw [hrb, if_neg (by simp)]
      dsimp only
      rw [if_pos (by simpa using hm)]
      exact ⟨rfl, by simp⟩
  · rcases hu : b.uploadOk with _ | _
    · rw [if_pos (by simp)]
      exact ⟨rfl, by simp⟩
    · rcases hrb : b.readback with _ | d
      · rw [if_neg (by simp)]
        exact ⟨rfl, by simp⟩
      · by_cases hm : d.last_updated = some now
        · rw [if_neg (by simp)]
          dsimp only
          rw [if_neg (by simpa using hm), hc, if_pos (by simp)]
          exact ⟨rfl, by simp⟩
        · rw [if_neg (by simp)]
          dsimp only
          rw [if_pos (by simpa using hm)]
          exact ⟨rfl, by simp⟩

/-- C4 amended witness: a failed copy step at a concrete input returns false
and issues no temp deletion. -/
theorem save_atomic_failure_without_cleanup_witness :
    (HashFileManager.save_to_s3_atomic
      ⟨true, some ⟨some "2026-01-01T00:00:00Z", []⟩, false⟩
      "2026-01-01T00:00:00Z" ⟨[], none⟩ ⟨[]⟩).ok = false ∧
    S3Op.deleteTemp ∉
      (HashFileManager.save_to_s3_atomic
        ⟨true, some ⟨some "2026-01-01T00:00:00Z", []⟩, false⟩
        "2026-01-01T00:00:00Z" ⟨[], none⟩ ⟨[]⟩).ops :=
  save_atomic_failure_returns_false_without_cleanup _ _ _ _
    (Or.inr (Or.inr (Or.inr rfl)))

/-! ## C7: the 24-hour resume window -/

/-- C7: `should_resume_sync` returns (false, none) with no saved state;
(true, state) when the saved `sync_id` matches; (true, state) for a foreign
`sync_id` whose `start_time` is less than 24 hours old; and (false, none) with
the stale state cleared for a foreign `sync_id` 24 hours old or more. -/
theorem should_resume_sync_cases (nowEpoch : Int) (current_sync_id : String)
    (st : RecoveryState) :
    (PartialSyncRecovery.should_resume_sync nowEpoch current_sync_id none =
      (false, none, none)) ∧
    (st.sync_id = current_sync_id →
      PartialSyncRecovery.should_resume_sync nowEpoch current_sync_id (some st) =
        (true, some st, some st)) ∧
    (∀ startEpoch : Int, st.sync_id ≠ current_sync_id →
      (parseIsoDatetime (replaceZ st.start_time)).bind isoToEpoch =
        some startEpoch →
      nowEpoch - startEpoch < 24 * 3600 →
      PartialSyncRecovery.should_resume_sync nowEpoch current_sync_id (some st) =
        (true, some st, some st)) ∧
    (∀ startEpoch : Int, st.sync_id ≠ current_sync_id →
      (parseIsoDatetime (replaceZ st.start_time)).bind isoToEpoch =
        some startEpoch →
      24 * 3600 ≤ nowEpoch - startEpoch →
      PartialSyncRecovery.should_resume_sync nowEpoch current_sync_id (some st) =
        (false, none, none)) := by
  refine ⟨rfl, ?_, ?_, ?_⟩
  · intro hid
    unfold PartialSyncRecovery.should_resume_sync
      PartialSyncRecovery.load_recovery_state
    dsimp only
    rw [if_pos hid]
  · intro startEpoch hid hparse hlt
    unfold PartialSyncRecovery.should_resume_sync
      PartialSyncRecovery.load_recovery_state
    dsimp only
    rw [if_neg hid, hparse]
    dsimp only
    rw [if_pos hlt]
  · intro startEpoch hid hparse hge
    unfold PartialSyncRecovery.should_resume_sync
      PartialSyncRecovery.load_recovery_state
    dsimp only
    rw [if_neg hid, hparse]
    dsimp only
    rw [if_neg (by omega)]

/-- C7 witness, at the spec's boundary probes: a foreign sync started
23h59m before now resumes; one started 24h01m before now does not and the
state is cleared.  (`2026-10-11T00:00:00Z` parses to epoch 1791676800.) -/
theorem should_resume_sync_cases_witness :
    PartialSyncRecovery.should_resume_sync (1791676800 + 86340) "sync-new"
        (some { sync_id := "sync-old", start_time := "2026-10-11T00:00:00Z" }) =
      (true, some { sync_id := "sync-old", start_time := "2026-10-11T00:00:00Z" },
        some { sync_id := "sync-old", start_time := "2026-10-11T00:00:00Z" }) ∧
    PartialSyncRecovery.should_resume_sync (1791676800 + 86460) "sync-new"
        (some { sync_id := "sync-old", start_time := "2026-10-11T00:00:00Z" }) =
      (false, none, none) :=
  ⟨(should_resume_sync_cases (1791676800 + 86340) "sync-new"
      { sync_id := "sync-old", start_time := "2026-10-11T00:00:00Z" }).2.2.1
      1791676800 (by decide) (by decide) (by decide),
    (should_resume_sync_cases (1791676800 + 86460) "sync-new"
      { sync_id := "sync-old", start_time := "2026-10-11T00:00:00Z" }).2.2.2
      1791676800 (by decide) (by decide) (by decide)⟩

/-! ## C8: backoff delay monotonicity with jitter disabled -/

/-- C8: with jitter disabled (and the backoff parameters in their intended
ranges: non-negative base delay, multiplier and cap, growth base at least 1),
`calculate_delay` is 0 for attempts ≤ 1, non-decreasing in the attempt
number, and once it reaches `max_delay` it stays there. -/
theorem calculate_delay_monotone (cfg : RetryConfig) (u : ℚ)
    (hj : cfg.jitter = false) (hb : 0 ≤ cfg.base_delay)
    (he : 1 ≤ cfg.exponential_base) (hm : 0 ≤ cfg.backoff_multiplier)
    (hd : 0 ≤ cfg.max_delay) :
    (∀ n, n ≤ 1 → RetryHandler.calculate_delay cfg u n = 0) ∧
    (∀ n, RetryHandler.calculate_delay cfg u n ≤
      RetryHandler.calculate_delay cfg u (n + 1)) ∧
    (∀ n, RetryHandler.calculate_delay cfg u n = cfg.max_delay →
      RetryHandler.calculate_delay cfg u (n + 1) = cfg.max_delay) := by
  have hbound : ∀ n, RetryHandler.calculate_delay cfg u n ≤ cfg.max_delay := by
    intro n
    unfold RetryHandler.calculate_delay
    split
    · exact hd
    · rw [hj]
      simp only [Bool.false_eq_true, if_false]
      exact max_le hd (min_le_right _ _)
  have hzero : ∀ n, n ≤ 1 → RetryHandler.calculate_delay cfg u n = 0 := by
    intro n hn
    unfold RetryHandler.calculate_delay
    rw [if_pos hn]
  have hmono : ∀ n, RetryHandler.calculate_delay cfg u n ≤
      RetryHandler.calculate_delay cfg u (n + 1) := by
    intro n
    match n with
    | 0 =>
      rw [hzero 0 (by norm_num), hzero 1 (by norm_num)]
    | 1 =>
      rw [hzero 1 (by norm_num)]
      unfold RetryHandler.calculate_delay
      rw [if_neg (by norm_num)]
      exact le_max_left 0 _
    | k + 2 =>
      unfold RetryHandler.calculate_delay
      rw [if_neg (by omega), if_neg (by omega), hj]
      simp only [Bool.false_eq_true, if_false]
      have hpow : cfg.exponential_base ^ (k + 2 - 2) ≤
          cfg.exponential_base ^ (k + 3 - 2) := by
        have h0 : (0:ℚ) ≤ cfg.exponential_base := le_trans zero_le_one he
        exact pow_le_pow_right₀ he (by omega)
      have hcore : cfg.base_delay * cfg.exponential_base ^ (k + 2 - 2) *
            cfg.backoff_multiplier ≤
          cfg.base_delay * cfg.exponential_base ^ (k + 3 - 2) *
            cfg.backoff_multiplier := by
        apply mul_le_mul_of_nonneg_right _ hm
        exact mul_le_mul_of_nonneg_left hpow hb
      exact max_le_max (le_refl 0) (min_le_min hcore (le_refl _))
  refine ⟨hzero, hmono, fun n hn => le_antisymm (hbound (n + 1)) ?_⟩
  rw [← hn]
  exact hmono n

/-- C8 witness: the default configuration with jitter disabled
(base 1, cap 60, growth base 2, multiplier 1) at attempt 1 and around the
plateau. -/
theorem calculate_delay_monotone_witness :
    RetryHandler.calculate_delay { jitter := false } 0 1 = 0 ∧
    RetryHandler.calculate_delay { jitter := false } 0 5 ≤
      RetryHandler.calculate_delay { jitter := false } 0 6 ∧
    (RetryHandler.calculate_delay { jitter := false } 0 9 =
        (60 : ℚ) →
      RetryHandler.calculate_delay { jitter := false } 0 10 = 60) :=
  ⟨(calculate_delay_monotone { jitter := false } 0 rfl (by norm_num)
      (by norm_num) (by norm_num) (by norm_num)).1 1 (by norm_num),
    (calculate_delay_monotone { jitter := false } 0 rfl (by norm_num)
      (by norm_num) (by norm_num) (by norm_num)).2.1 5,
    (calculate_delay_monotone { jitter := false } 0 rfl (by norm_num)
      (by norm_num) (by norm_num) (by norm_num)).2.2 9⟩

/-! ## C6: serialization round-trip -/

/-- C6 counterexample: the round-trip is NOT the identity on every manager.
With `last_updated` unset, `to_dict` substitutes a fresh timestamp, so the
reloaded `last_updated` differs; and an entry stored under a key with fewer
than two hyphens (here `"abc"`) is silently dropped by `load_from_dict`'s
key-splitting, so the reloaded bottles map differs. -/
theorem to_dict_load_not_inverse :
    (HashFileManager.load_from_dict
        (HashFileManager.to_dict "2026-01-01T00:00:00Z"
          ⟨[], none⟩) =
      .ok ⟨[], some "2026-01-01T00:00:00Z"⟩ ∧
      some "2026-01-01T00:00:00Z" ≠ (none : Option String)) ∧
    (HashFileManager.load_from_dict
        (HashFileManager.to_dict "2026-01-01T00:00:00Z"
          ⟨[("abc",
              ⟨"abc", "1", "p",
                "aaaaaaaaaaaaaaaaaaaaaaaaaaaaaaaaaaaaaaaaaaaaaaaaaaaaaaaaaaaaaaaa",
                "2024-01-15", 5⟩)],
            some "2025-01-01T00:00:00Z"⟩) =
      .ok ⟨[], some "2025-01-01T00:00:00Z"⟩ ∧
      ([] : List (String × HashEntry)) ≠
        [("abc",
            ⟨"abc", "1", "p",
              "aaaaaaaaaaaaaaaaaaaaaaaaaaaaaaaaaaaaaaaaaaaaaaaaaaaaaaaaaaaaaaaa",
              "2024-01-15", 5⟩)]) :=
  ⟨⟨rfl, by decide⟩, rfl, by decide⟩

theorem rsplitOnce_not_mem (sep : Char) (l : List Char) (h : sep ∉ l) :
    rsplitOnce sep l = none := by
  induction l with
  | nil => rfl
  | cons c rest ih =>
    simp only [List.mem_cons] at h
    push_neg at h
    unfold rsplitOnce
    rw [ih h.2, if_neg (fun hc => h.1 hc.symm)]

theorem rsplitOnce_append (a b : List Char) (sep : Char) (hb : sep ∉ b) :
    rsplitOnce sep (a ++ sep :: b) = some (a, b) := by
  induction a with
  | nil =>
    rw [List.nil_append]
    unfold rsplitOnce
    rw [rsplitOnce_not_mem sep b hb]
    simp
  | cons c rest ih =>
    show rsplitOnce sep (c :: (rest ++ sep :: b)) = _
    unfold rsplitOnce
    rw [ih]

theorem string_data_append (s t : String) : (s ++ t).data = s.data ++ t.data :=
  rfl

/-- Parsing the derived key of an entry recovers its fields, provided neither
the version nor the platform contains a hyphen. -/
theorem parseBottleKey_derived (e : HashEntry)
    (hv : '-' ∉ e.version.data) (hp : '-' ∉ e.platform.data) :
    HashFileManager.parseBottleKey (HashFileManager.derivedKey e) =
      some (e.formula_name, e.version, e.platform) := by
  unfold HashFileManager.parseBottleKey HashFileManager.derivedKey
  have hdata : (e.formula_name ++ "-" ++ e.version ++ "-" ++ e.platform).data =
      (e.formula_name.data ++ '-' :: e.version.data) ++ '-' :: e.platform.data := by
    simp [string_data_append]
  rw [hdata, rsplitOnce_append _ _ _ hp]
  dsimp only
  rw [rsplitOnce_append _ _ _ hv]

theorem assocKeys_append {α : Type} (a b : List (String × α)) :
    assocKeys (a ++ b) = assocKeys a ++ assocKeys b :=
  List.map_append _ _ _

/-- Reloading the serialized bottles map appends exactly the original
entries, provided keys are unique, derive from their entries, and versions
and platforms are hyphen-free. -/
theorem loadBottles_toDict (l : List (String × HashEntry)) :
    ∀ acc : List (String × HashEntry), (assocKeys l).Nodup →
      (∀ k ∈ assocKeys l, k ∉ assocKeys acc) →
      (∀ kv ∈ l, kv.2.valid = true ∧ kv.1 = HashFileManager.derivedKey kv.2 ∧
        '-' ∉ kv.2.version.data ∧ '-' ∉ kv.2.platform.data) →
      HashFileManager.loadBottles acc
          (l.map fun kv => (kv.1, kv.2.to_dict)) = .ok (acc ++ l) := by
  induction l with
  | nil =>
    intro acc _ _ _
    simp [HashFileManager.loadBottles]
  | cons hd rest ih =>
    intro acc hnodup hdisj hent
    obtain ⟨k, e⟩ := hd
    obtain ⟨hvalid, hkey, hv, hp⟩ := hent (k, e) (List.mem_cons_self _ _)
    have hparse : HashFileManager.parseBottleKey k =
        some (e.formula_name, e.version, e.platform) := by
      rw [show k = HashFileManager.derivedKey e from hkey]
      exact parseBottleKey_derived e hv hp
    have hfrom : HashEntry.from_dict e.formula_name e.version e.platform
        e.to_dict = e := rfl
    show HashFileManager.loadBottles acc
        ((k, e.to_dict) :: rest.map fun kv => (kv.1, kv.2.to_dict)) = _
    unfold HashFileManager.loadBottles
    rw [hparse]
    dsimp only
    rw [hfrom, if_pos hvalid]
    have hknotin : k ∉ assocKeys acc :=
      hdisj k (by simp [assocKeys])
    rw [assocPut_of_not_mem k e acc hknotin]
    have hnodup' : (assocKeys rest).Nodup := by
      simpa [assocKeys] using hnodup.of_cons
    have hdisj' : ∀ k' ∈ assocKeys rest, k' ∉ assocKeys (acc ++ [(k, e)]) := by
      intro k' hk'
      rw [assocKeys_append]
      simp only [List.mem_append]
      push_neg
      constructor
      · refine hdisj k' ?_
        simp only [assocKeys, List.map_cons, List.mem_cons]
        exact Or.inr hk'
      · have hne : k' ≠ k := by
          intro hcontra
          have : k ∈ assocKeys rest := hcontra ▸ hk'
          simp only [assocKeys, List.map_cons] at hnodup
          exact (List.nodup_cons.mp hnodup).1 this
        simp [assocKeys, hne]
    have hent' : ∀ kv ∈ rest, kv.2.valid = true ∧ kv.1 = HashFileManager.derivedKey kv.2 ∧
        '-' ∉ kv.2.version.data ∧ '-' ∉ kv.2.platform.data :=
      fun kv hkv => hent kv (List.mem_cons_of_mem _ hkv)
    rw [ih (acc ++ [(k, e)]) hnodup' hdisj' hent']
    simp

/-- C6 as amended: `to_dict` followed by `load_from_dict` reproduces an equal
bottles map and `last_updated` for every manager whose `last_updated` is set
(and non-empty), whose keys are unique and equal their entries' derived
`formula-version-platform` keys with hyphen-free version and platform, and
whose entries all pass validation.  (Outside these conditions the
counterexample applies: an unset `last_updated` is replaced by a fresh
timestamp, unsplittable keys are dropped, and invalid entries abort the
load.) -/
theorem to_dict_load_round_trip (now lu : String) (m : HashFileManager)
    (hl : m.last_updated = some lu) (hne : lu ≠ "")
    (hkeys : (assocKeys m.bottles).Nodup)
    (hent : ∀ kv ∈ m.bottles, kv.2.valid = true ∧ kv.1 = HashFileManager.derivedKey kv.2 ∧
      '-' ∉ kv.2.version.data ∧ '-' ∉ kv.2.platform.data) :
    HashFileManager.load_from_dict (HashFileManager.to_dict now m) = .ok m := by
  obtain ⟨bots, lu0⟩ := m
  dsimp only at hl hkeys hent
  subst hl
  unfold HashFileManager.to_dict HashFileManager.load_from_dict
  dsimp only
  rw [loadBottles_toDict bots [] hkeys (by simp [assocKeys]) hent]
  simp [Option.filter, hne]
  rfl

/-- C6 amended witness: a concrete valid one-entry manager round-trips
exactly. -/
theorem to_dict_load_round_trip_witness :
    HashFileManager.load_from_dict
        (HashFileManager.to_dict "2026-01-01T00:00:00Z"
          ⟨[("foo-1.0-arm64_sonoma",
              ⟨"foo", "1.0", "arm64_sonoma",
                "aaaaaaaaaaaaaaaaaaaaaaaaaaaaaaaaaaaaaaaaaaaaaaaaaaaaaaaaaaaaaaaa",
                "2024-01-15", 100⟩)],
            some "2025-06-01T12:00:00Z"⟩) =
      .ok ⟨[("foo-1.0-arm64_sonoma",
              ⟨"foo", "1.0", "arm64_sonoma",
                "aaaaaaaaaaaaaaaaaaaaaaaaaaaaaaaaaaaaaaaaaaaaaaaaaaaaaaaaaaaaaaaa",
                "2024-01-15", 100⟩)],
            some "2025-06-01T12:00:00Z"⟩ :=
  to_dict_load_round_trip "2026-01-01T00:00:00Z" "2025-06-01T12:00:00Z" _
    rfl (by decide) (by decide)
    (by intro kv hkv; simp only [List.mem_singleton] at hkv; subst hkv
        exact ⟨by decide, by decide, by decide, by decide⟩)

end HomebrewSync
